import Mathlib

/-!
# starcomplete: completion candidates for a Starlark source buffer

A shallow embedding of `complete.go` (package `starcomplete`) and the properties of its
statement locator, completion dispatcher and module-load strategy.

Conventions of the embedding:

* Go `int32` fields are `Int`; the program only compares them and never does arithmetic on
  them, so no wrap-around can occur.
* A Go slice is a `List`; the `nil` slice is the empty list.
* A Go `error` is `Option Error`, `none` being the `nil` error.
* The Starlark parser (`go.starlark.net`) is not part of the package: the parse function is
  a parameter of `Completions`, and a statement is represented by what the program inspects
  of it, its dynamic type and the two positions returned by `Span`.
* Text written to standard output is recorded as a list of `Printf` calls.
* A Go `map[string]interface{}` is the list of the entries of its literal, and a run-time
  panic is the value `none` of an `Option`.
-/

set_option autoImplicit false

namespace starcomplete

/-! ## Completion item kinds -/

/-- Go: `type CompletionItemKind int`. -/
abbrev CompletionItemKind := Int

def CIKMethod : CompletionItemKind := 0
def CIKFunction : CompletionItemKind := 1
def CIKConstructor : CompletionItemKind := 2
def CIKField : CompletionItemKind := 3
def CIKVariable : CompletionItemKind := 4
def CIKClass : CompletionItemKind := 5
def CIKStruct : CompletionItemKind := 6
def CIKInterface : CompletionItemKind := 7
def CIKModule : CompletionItemKind := 8
def CIKProperty : CompletionItemKind := 9
def CIKEvent : CompletionItemKind := 10
def CIKOperator : CompletionItemKind := 11
def CIKUnit : CompletionItemKind := 12
def CIKValue : CompletionItemKind := 13
def CIKConstant : CompletionItemKind := 14
def CIKEnum : CompletionItemKind := 15
def CIKEnumMember : CompletionItemKind := 16
def CIKKeyword : CompletionItemKind := 17
def CIKText : CompletionItemKind := 18
def CIKColor : CompletionItemKind := 19
def CIKFile : CompletionItemKind := 20
def CIKReference : CompletionItemKind := 21
def CIKCustomcolor : CompletionItemKind := 22
def CIKFolder : CompletionItemKind := 23
def CIKTypeParameter : CompletionItemKind := 24
def CIKSnippet : CompletionItemKind := 25

/-- The array literal indexed by `String`. -/
def kindNames : List String :=
  [ "Method",
    "Function",
    "Constructor",
    "Field",
    "Variable",
    "Class",
    "Struct",
    "Interface",
    "Module",
    "Property",
    "Event",
    "Operator",
    "Unit",
    "Value",
    "Constant",
    "Enum",
    "EnumMember",
    "Keyword",
    "Text",
    "Color",
    "File",
    "Reference",
    "Customcolor",
    "Folder",
    "TypeParameter",
    "Snippet" ]

/-- Go: `func (k CompletionItemKind) String() string`, the array literal indexed by `k`;
`none` is the run-time panic of an index out of range. -/
def CompletionItemKind.String (k : CompletionItemKind) : Option String :=
  if 0 ≤ k ∧ k < kindNames.length then kindNames[k.toNat]? else none

/-! ## Positions, ranges and completion items -/

/-- Go: `type Position struct { LineNumber int32; Column int32 }`. -/
structure Position where
  LineNumber : Int
  Column : Int
deriving DecidableEq, Repr

/-- Go: `type Range struct`, four `int32` fields. -/
structure Range where
  StartLineNumber : Int
  StartColumn : Int
  EndLineNumber : Int
  EndColumn : Int
deriving DecidableEq, Repr

def NewRange (start stop : Position) : Range :=
  { StartLineNumber := start.LineNumber
    StartColumn := start.Column
    EndLineNumber := stop.LineNumber
    EndColumn := stop.Column }

def NewPosition (l c : Int) : Position :=
  { LineNumber := l
    Column := c }

/-- Completion is a completion suggestion. -/
structure Completion where
  InsertText : String
  Detail : String
  Kind : CompletionItemKind
  Label : String
  Documentation : String
  Range : Range
deriving DecidableEq, Repr

/-- A Go value of type `interface{}`, for the dynamic types stored by `ToMap`: `string`,
`int32`, `CompletionItemKind` and `map[string]interface{}`. A map is the list of the entries
of its literal; the keys of a map literal are pairwise distinct. -/
inductive Value where
  | ofString (s : String)
  | ofInt32 (n : Int)
  | ofKind (k : CompletionItemKind)
  | ofMap (entries : List (String × Value))

/-- Go: `map[string]interface{}`. -/
abbrev GoMap := List (String × Value)

/-- Go: `m[key]`, with `none` for an absent key. -/
def GoMap.get (m : GoMap) (key : String) : Option Value :=
  List.lookup key m

def Range.ToMap (r : Range) : GoMap :=
  [ ("startLineNumber", Value.ofInt32 r.StartLineNumber),
    ("startColumn", Value.ofInt32 r.StartColumn),
    ("endLineNumber", Value.ofInt32 r.EndLineNumber),
    ("endColumn", Value.ofInt32 r.EndColumn) ]

def Completion.ToMap (c : Completion) : GoMap :=
  [ ("insertText", Value.ofString c.InsertText),
    ("detail", Value.ofString c.Detail),
    ("kind", Value.ofKind c.Kind),
    ("label", Value.ofString c.Label),
    ("documentation", Value.ofString c.Documentation),
    ("range", Value.ofMap c.Range.ToMap) ]

/-! ## The fragment of the Go standard library used by `LoadString`

`fmt.Sprintf` with the verb `%q` on a string operand is `strconv.Quote`. A Lean `String`
is a sequence of Unicode scalar values, so the model covers the Go strings that are valid
UTF-8. Printability of runes above U+00FF is decided by tables of the Go runtime; they are
the parameter `wide`. -/

/-- Go: `lowerhex[n]`, for `n < 16`. -/
def lowerhex (n : Nat) : Char :=
  "0123456789abcdef".toList.getD (n % 16) '0'

/-- Go: `strconv.IsPrint`; `wide` answers for runes above U+00FF. -/
def IsPrint (wide : Char → Bool) (r : Char) : Bool :=
  if r.toNat ≤ 0xFF then
    if 0x20 ≤ r.toNat ∧ r.toNat ≤ 0x7E then true
    else if 0xA1 ≤ r.toNat ∧ r.toNat ≤ 0xFF then r.toNat != 0xAD
    else false
  else wide r

/-- Go: `strconv.appendEscapedRune` with the double quote as quote character and neither
`ASCIIonly` nor `graphicOnly`, returning the appended bytes. -/
def appendEscapedRune (wide : Char → Bool) (r : Char) : List Char :=
  let n := r.toNat
  if n = 0x22 ∨ n = 0x5C then [Char.ofNat 0x5C, r]
  else if IsPrint wide r then [r]
  else if n = 0x07 then [Char.ofNat 0x5C, 'a']
  else if n = 0x08 then [Char.ofNat 0x5C, 'b']
  else if n = 0x0C then [Char.ofNat 0x5C, 'f']
  else if n = 0x0A then [Char.ofNat 0x5C, 'n']
  else if n = 0x0D then [Char.ofNat 0x5C, 'r']
  else if n = 0x09 then [Char.ofNat 0x5C, 't']
  else if n = 0x0B then [Char.ofNat 0x5C, 'v']
  else if n < 0x20 ∨ n = 0x7F then
    [Char.ofNat 0x5C, 'x', lowerhex (n / 16), lowerhex n]
  else if n < 0x10000 then
    [Char.ofNat 0x5C, 'u', lowerhex (n / 4096), lowerhex (n / 256), lowerhex (n / 16),
      lowerhex n]
  else
    [Char.ofNat 0x5C, 'U', lowerhex (n / 268435456), lowerhex (n / 16777216),
      lowerhex (n / 1048576), lowerhex (n / 65536), lowerhex (n / 4096), lowerhex (n / 256),
      lowerhex (n / 16), lowerhex n]

/-- Go: `strconv.Quote`, as a list of characters. -/
def quoteChars (wide : Char → Bool) (s : List Char) : List Char :=
  Char.ofNat 0x22 :: (s.flatMap (appendEscapedRune wide) ++ [Char.ofNat 0x22])

/-- Go: `strconv.Quote`. -/
def Quote (wide : Char → Bool) (s : String) : String :=
  String.mk (quoteChars wide s.toList)

/-- The interpretation of a format string made of literal text and `%q` verbs, on string
operands; a `%q` with no operand left prints `%!q(MISSING)`. -/
def sprintfChars (wide : Char → Bool) : List Char → List String → List Char
  | [], _ => []
  | [c], _ => [c]
  | c :: d :: rest, args =>
    if c = '%' ∧ d = 'q' then
      match args with
      | a :: args => quoteChars wide a.toList ++ sprintfChars wide rest args
      | [] => "%!q(MISSING)".toList ++ sprintfChars wide rest []
    else c :: sprintfChars wide (d :: rest) args

/-- Go: `fmt.Sprintf`, for formats made of literal text and `%q` verbs with as many string
operands as verbs. -/
def Sprintf (wide : Char → Bool) (format : String) (args : List String) : String :=
  String.mk (sprintfChars wide format.toList args)

/-! ## Modules -/

/-- Go: `type ModuleInfo struct`. -/
structure ModuleInfo where
  Name : String
  Documentation : String
  DefaultImportSymbol : String
deriving DecidableEq, Repr

def ModuleInfo.LoadString (wide : Char → Bool) (mi : ModuleInfo) : String :=
  if mi.DefaultImportSymbol ≠ "" then
    Sprintf wide "load(%q,%q)" [mi.Name, mi.DefaultImportSymbol]
  else
    Sprintf wide "load(%q)" [mi.Name]

def ModuleInfo.Completion (wide : Char → Bool) (mi : ModuleInfo) (p : Position) : Completion :=
  { InsertText := mi.LoadString wide
    Detail := "module"
    Kind := CIKFolder
    Label := mi.Name
    Documentation := mi.Documentation
    Range := NewRange p p }

def moduleInfosToCompletions (wide : Char → Bool) (mods : List ModuleInfo) (p : Position) :
    List Completion :=
  if mods.length = 0 then []
  else mods.foldl (fun cmpls mi => cmpls ++ [mi.Completion wide p]) []

/-! ## Statements, as delivered by the parser -/

/-- The position of a token in the parsed source: the fields `Line` and `Col` (`int32`) of
the parser's position type. -/
structure TokenPosition where
  Line : Int
  Col : Int
deriving DecidableEq, Repr

/-- The nine statement types of the Starlark grammar, the dynamic types a `Stmt` can have. -/
inductive StmtKind where
  | AssignStmt
  | BranchStmt
  | DefStmt
  | ExprStmt
  | ForStmt
  | WhileStmt
  | IfStmt
  | LoadStmt
  | ReturnStmt
deriving DecidableEq, Repr

/-- A statement of the parsed file: its dynamic type and the two positions its `Span` method
returns. -/
structure Stmt where
  kind : StmtKind
  start : TokenPosition
  stop : TokenPosition
deriving DecidableEq, Repr

/-- Go: `stmt.Span()`. -/
def Stmt.Span (stmt : Stmt) : TokenPosition × TokenPosition :=
  (stmt.start, stmt.stop)

/-- The parsed file; the program reads its field `Stmts` only. -/
structure File where
  Stmts : List Stmt
deriving DecidableEq, Repr

/-- A Go `error` value: either of dynamic type `Error` of the parser's package (a position
and a message), or any other error, identified by its message. -/
inductive Error where
  | SyntaxError (pos : TokenPosition) (msg : String)
  | Other (msg : String)
deriving DecidableEq, Repr

/-- Go: `fmt.Errorf(msg)` for a message without verbs. -/
def Errorf (msg : String) : Error :=
  Error.Other msg

/-- The table of predeclared names, `starlark.StringDict`: a finite map from names to
values of the interpreter. -/
abbrev StringDict (V : Type) := String → Option V

/-- One call of `fmt.Printf` with a value of the interface type `Stmt` as operand (`none` is
the nil interface): what the program writes to standard output. -/
structure Printf where
  format : String
  operand : Option Stmt
deriving DecidableEq, Repr

/-- The outcome of a call of a function of type `([]Completion, error)`: the two returned
values, and the writes to standard output made during the call, in order. -/
structure Outcome where
  cmpls : List Completion
  err : Option Error
  stdout : List Printf
deriving DecidableEq, Repr

/-! ## The statement locator -/

/-- The condition of the `if` in the loop of `statementAtPosition`. -/
def matchRule (stmt : Stmt) (p : Position) : Prop :=
  stmt.Span.2.Line = p.LineNumber ∧ stmt.Span.1.Col ≤ p.Column ∧ stmt.Span.2.Col ≥ p.Column

instance (stmt : Stmt) (p : Position) : Decidable (matchRule stmt p) := by
  unfold matchRule; infer_instance

/-- The loop of `statementAtPosition`: `some stmt` when the loop returns `stmt`, `none` when
it ends, by `break` or at the end of the statements. -/
def statementAtPosition.loop : List Stmt → Position → Option Stmt
  | [], _ => none
  | stmt :: rest, p =>
    if matchRule stmt p then some stmt
    else if stmt.Span.2.Line > p.LineNumber then none
    else statementAtPosition.loop rest p

def statementAtPosition (file : File) (p : Position) : Option Stmt × Option Error :=
  match statementAtPosition.loop file.Stmts p with
  | some stmt => (some stmt, none)
  | none => (none, some (Errorf "token not found"))

/-! ## The dispatcher and the entry point -/

def completionsForStatment {V : Type} (wide : Char → Bool) (stmt : Option Stmt) (p : Position)
    (_predeclared : StringDict V) (modules : List ModuleInfo) : Outcome :=
  let out := [Printf.mk "statement: %#v\n" stmt]
  match stmt.map Stmt.kind with
  | some StmtKind.AssignStmt => { cmpls := [], err := none, stdout := out }
  | some StmtKind.BranchStmt => { cmpls := [], err := none, stdout := out }
  | some StmtKind.DefStmt => { cmpls := [], err := none, stdout := out }
  | some StmtKind.ExprStmt => { cmpls := [], err := none, stdout := out }
  | some StmtKind.ForStmt => { cmpls := [], err := none, stdout := out }
  | some StmtKind.WhileStmt => { cmpls := [], err := none, stdout := out }
  | some StmtKind.IfStmt => { cmpls := [], err := none, stdout := out }
  | some StmtKind.LoadStmt =>
    { cmpls := moduleInfosToCompletions wide modules p, err := none, stdout := out }
  | some StmtKind.ReturnStmt => { cmpls := [], err := none, stdout := out }
  | none => { cmpls := [], err := none, stdout := out }

/-- The entry point. `Parse filename src` stands for the parser call
`Parse(filename, src, 0)`, which returns either a file or an error. -/
def Completions {V Src : Type} (Parse : String → Src → Except Error File)
    (wide : Char → Bool) (filename : String) (src : Src) (p : Position)
    (predeclared : StringDict V) (modules : List ModuleInfo) : Outcome :=
  match Parse filename src with
  | Except.error err =>
    match err with
    | Error.SyntaxError _ _ => { cmpls := [], err := none, stdout := [] }
    | _ => { cmpls := [], err := some err, stdout := [] }
  | Except.ok file =>
    match statementAtPosition file p with
    | (_, some err) => { cmpls := [], err := some err, stdout := [] }
    | (stmt, none) => completionsForStatment wide stmt p predeclared modules

def CompletionsToMap (cmpls : List Completion) : List GoMap :=
  cmpls.foldl (fun r cmpl => r ++ [cmpl.ToMap]) []

/-! ## Vocabulary of the properties -/

/-- The match rule in the words of the specification: the cursor is on the last line of the
statement, and its column lies between the start column and the end column, inclusive. -/
def finalLineMatch (s : Stmt) (p : Position) : Prop :=
  s.stop.Line = p.LineNumber ∧ s.start.Col ≤ p.Column ∧ p.Column ≤ s.stop.Col

instance (s : Stmt) (p : Position) : Decidable (finalLineMatch s p) := by
  unfold finalLineMatch; infer_instance

/-- Document order on (line, column) pairs: line first, then column. -/
def docLe (l₁ c₁ l₂ c₂ : Int) : Prop :=
  l₁ < l₂ ∨ (l₁ = l₂ ∧ c₁ ≤ c₂)

instance (l₁ c₁ l₂ c₂ : Int) : Decidable (docLe l₁ c₁ l₂ c₂) := by
  unfold docLe; infer_instance

/-- A well-formed span: the start is not after the end in document order. -/
def spanWellFormed (s : Stmt) : Prop :=
  docLe s.start.Line s.start.Col s.stop.Line s.stop.Col

instance (s : Stmt) : Decidable (spanWellFormed s) := by
  unfold spanWellFormed; infer_instance

/-- The span of the statement contains the cursor in document order. -/
def spanContains (s : Stmt) (p : Position) : Prop :=
  docLe s.start.Line s.start.Col p.LineNumber p.Column ∧
    docLe p.LineNumber p.Column s.stop.Line s.stop.Col

instance (s : Stmt) (p : Position) : Decidable (spanContains s p) := by
  unfold spanContains; infer_instance

/-- The statements are ordered by ascending start position. -/
def startsAscending (stmts : List Stmt) : Prop :=
  stmts.Pairwise (fun a b => docLe a.start.Line a.start.Col b.start.Line b.start.Col)

instance (stmts : List Stmt) : Decidable (startsAscending stmts) := by
  unfold startsAscending; infer_instance

/-- No two statements overlap: each one ends at or before the start of every later one. -/
def spansDisjoint (stmts : List Stmt) : Prop :=
  stmts.Pairwise (fun a b => docLe a.stop.Line a.stop.Col b.start.Line b.start.Col)

instance (stmts : List Stmt) : Decidable (spansDisjoint stmts) := by
  unfold spansDisjoint; infer_instance

/-- The result "not found" of the locator. -/
def notFound : Option Stmt × Option Error :=
  (none, some (Errorf "token not found"))

/-- The locator without the fast exit, in the words of the specification: a scan of the
whole sequence that returns the first statement satisfying the match rule, or not found. -/
def fullScanStatementAtPosition (file : File) (p : Position) : Option Stmt × Option Error :=
  match file.Stmts.find? (fun t => decide (finalLineMatch t p)) with
  | some s => (some s, none)
  | none => notFound

/-- The two-argument quoted form of a load statement. -/
def twoArgumentForm (wide : Char → Bool) (name symbol : String) : String :=
  "load(" ++ Quote wide name ++ "," ++ Quote wide symbol ++ ")"

/-- The one-argument quoted form of a load statement. -/
def oneArgumentForm (wide : Char → Bool) (name : String) : String :=
  "load(" ++ Quote wide name ++ ")"

/-- The declared constants of type `CompletionItemKind`, in the order of their declaration. -/
def allKinds : List CompletionItemKind :=
  [CIKMethod, CIKFunction, CIKConstructor, CIKField, CIKVariable, CIKClass, CIKStruct,
    CIKInterface, CIKModule, CIKProperty, CIKEvent, CIKOperator, CIKUnit, CIKValue,
    CIKConstant, CIKEnum, CIKEnumMember, CIKKeyword, CIKText, CIKColor, CIKFile,
    CIKReference, CIKCustomcolor, CIKFolder, CIKTypeParameter, CIKSnippet]

/-- The keys of the mapping of a completion item, in the words of the specification. -/
def completionKeys : List String :=
  ["insertText", "detail", "kind", "label", "documentation", "range"]

/-- The keys of the mapping of a range, in the words of the specification. -/
def rangeKeys : List String :=
  ["startLineNumber", "startColumn", "endLineNumber", "endColumn"]

/-- The catalog of the test `TestGoodCompletions`. -/
def testModules : List ModuleInfo :=
  [⟨"net/http", "make network requests", "http"⟩]

/-- The parse of the source text of `TestGoodCompletions`: one load statement, from the
position (1,1) of `load` to the position (1,11) of its closing parenthesis. -/
def testParse (_filename _src : String) : Except Error File :=
  Except.ok ⟨[⟨StmtKind.LoadStmt, ⟨1, 1⟩, ⟨1, 11⟩⟩]⟩

/-! ## Lemmas on the module-load strategy -/

theorem foldl_append_singleton {α β : Type} (f : α → β) (xs : List α) (acc : List β) :
    xs.foldl (fun cmpls x => cmpls ++ [f x]) acc = acc ++ xs.map f := by
  induction xs generalizing acc with
  | nil => simp
  | cons x xs ih => simp [ih]

theorem moduleInfosToCompletions_eq_map (wide : Char → Bool) (mods : List ModuleInfo)
    (p : Position) :
    moduleInfosToCompletions wide mods p = mods.map (fun mi => mi.Completion wide p) := by
  unfold moduleInfosToCompletions
  split
  · next h => simp [List.length_eq_zero.mp h]
  · simpa using foldl_append_singleton (fun mi => ModuleInfo.Completion wide mi p) mods []

theorem completionsForStatment_load {V : Type} (wide : Char → Bool) (stmt : Stmt)
    (p : Position) (predeclared : StringDict V) (modules : List ModuleInfo)
    (hload : stmt.kind = StmtKind.LoadStmt) :
    completionsForStatment wide (some stmt) p predeclared modules =
      { cmpls := modules.map (fun mi => mi.Completion wide p), err := none,
        stdout := [Printf.mk "statement: %#v\n" (some stmt)] } := by
  simp [completionsForStatment, hload, moduleInfosToCompletions_eq_map]

theorem Sprintf_two (wide : Char → Bool) (a b : String) :
    Sprintf wide "load(%q,%q)" [a, b] = twoArgumentForm wide a b := by
  apply String.ext
  have h : "load(%q,%q)".toList = ['l', 'o', 'a', 'd', '(', '%', 'q', ',', '%', 'q', ')'] := rfl
  simp [Sprintf, twoArgumentForm, Quote, h, sprintfChars]

theorem Sprintf_one (wide : Char → Bool) (a : String) :
    Sprintf wide "load(%q)" [a] = oneArgumentForm wide a := by
  apply String.ext
  have h : "load(%q)".toList = ['l', 'o', 'a', 'd', '(', '%', 'q', ')'] := rfl
  simp [Sprintf, oneArgumentForm, Quote, h, sprintfChars]

theorem twoArgumentForm_ne_oneArgumentForm (wide : Char → Bool) (a b : String) :
    twoArgumentForm wide a b ≠ oneArgumentForm wide a := by
  intro h
  have h' := congrArg String.data h
  simp [twoArgumentForm, oneArgumentForm, Quote, quoteChars] at h'

/-! ## Lemmas on the statement locator -/

theorem matchRule_iff (s : Stmt) (p : Position) : matchRule s p ↔ finalLineMatch s p := by
  simp [matchRule, finalLineMatch, Stmt.Span]

theorem loop_nil (p : Position) : statementAtPosition.loop [] p = none := rfl

theorem loop_cons_match (s : Stmt) (rest : List Stmt) (p : Position)
    (h : finalLineMatch s p) : statementAtPosition.loop (s :: rest) p = some s := by
  simp [statementAtPosition.loop, (matchRule_iff s p).mpr h]

theorem loop_cons_break (s : Stmt) (rest : List Stmt) (p : Position)
    (h : ¬ finalLineMatch s p) (hlate : p.LineNumber < s.stop.Line) :
    statementAtPosition.loop (s :: rest) p = none := by
  have h' : ¬ matchRule s p := fun hm => h ((matchRule_iff s p).mp hm)
  simp [statementAtPosition.loop, h', Stmt.Span, hlate]

theorem loop_cons_next (s : Stmt) (rest : List Stmt) (p : Position)
    (h : ¬ finalLineMatch s p) (hearly : ¬ p.LineNumber < s.stop.Line) :
    statementAtPosition.loop (s :: rest) p = statementAtPosition.loop rest p := by
  have h' : ¬ matchRule s p := fun hm => h ((matchRule_iff s p).mp hm)
  simp [statementAtPosition.loop, h', Stmt.Span, hearly]

/-- What the loop has seen when it returns a statement: the statement matches, and nothing
before it does. -/
theorem loop_eq_some (stmts : List Stmt) (p : Position) (s : Stmt)
    (h : statementAtPosition.loop stmts p = some s) :
    finalLineMatch s p ∧
      ∃ pre post, stmts = pre ++ s :: post ∧ ∀ t ∈ pre, ¬ finalLineMatch t p := by
  induction stmts with
  | nil => simp [loop_nil] at h
  | cons a rest ih =>
    by_cases hm : finalLineMatch a p
    · rw [loop_cons_match a rest p hm] at h
      cases h
      exact ⟨hm, [], rest, rfl, by simp⟩
    · by_cases hlate : p.LineNumber < a.stop.Line
      · rw [loop_cons_break a rest p hm hlate] at h
        cases h
      · rw [loop_cons_next a rest p hm hlate] at h
        obtain ⟨hs, pre, post, hsplit, hpre⟩ := ih h
        refine ⟨hs, a :: pre, post, by simp [hsplit], ?_⟩
        intro t ht
        rcases List.mem_cons.mp ht with rfl | ht
        · exact hm
        · exact hpre t ht

theorem loop_eq_none_of_no_match (stmts : List Stmt) (p : Position)
    (h : ∀ t ∈ stmts, ¬ finalLineMatch t p) : statementAtPosition.loop stmts p = none := by
  induction stmts with
  | nil => rfl
  | cons a rest ih =>
    have hm : ¬ finalLineMatch a p := h a (List.mem_cons_self a rest)
    by_cases hlate : p.LineNumber < a.stop.Line
    · exact loop_cons_break a rest p hm hlate
    · rw [loop_cons_next a rest p hm hlate]
      exact ih (fun t ht => h t (List.mem_cons_of_mem a ht))

theorem statementAtPosition_eq_some (file : File) (p : Position) (s : Stmt)
    (h : (statementAtPosition file p).1 = some s) :
    statementAtPosition.loop file.Stmts p = some s ∧ statementAtPosition file p = (some s, none) := by
  unfold statementAtPosition at h ⊢
  cases hl : statementAtPosition.loop file.Stmts p with
  | none => simp [hl] at h
  | some t =>
    simp [hl] at h
    simp [h]

theorem statementAtPosition_of_loop_none (file : File) (p : Position)
    (h : statementAtPosition.loop file.Stmts p = none) :
    statementAtPosition file p = notFound := by
  simp [statementAtPosition, h, notFound]

/-- With end lines that never decrease along the sequence, the fast exit loses nothing. -/
theorem loop_eq_find (stmts : List Stmt) (p : Position)
    (hmono : stmts.Pairwise (fun a b => a.stop.Line ≤ b.stop.Line)) :
    statementAtPosition.loop stmts p = stmts.find? (fun t => decide (finalLineMatch t p)) := by
  induction stmts with
  | nil => rfl
  | cons a rest ih =>
    rw [List.pairwise_cons] at hmono
    by_cases hm : finalLineMatch a p
    · rw [loop_cons_match a rest p hm]
      simp [List.find?, hm]
    · by_cases hlate : p.LineNumber < a.stop.Line
      · rw [loop_cons_break a rest p hm hlate]
        symm
        rw [List.find?_eq_none]
        intro t ht
        rcases List.mem_cons.mp ht with rfl | ht
        · simpa using hm
        · have hle := hmono.1 t ht
          have : ¬ finalLineMatch t p := fun hmt => by
            have := hmt.1
            omega
          simpa using this
      · rw [loop_cons_next a rest p hm hlate, ih hmono.2]
        simp [List.find?, hm]

theorem endLines_monotone (stmts : List Stmt) (hwf : ∀ t ∈ stmts, spanWellFormed t)
    (hdisj : spansDisjoint stmts) :
    stmts.Pairwise (fun a b => a.stop.Line ≤ b.stop.Line) := by
  unfold spansDisjoint at hdisj
  induction stmts with
  | nil => exact List.Pairwise.nil
  | cons a rest ih =>
    rw [List.pairwise_cons] at hdisj ⊢
    refine ⟨?_, ih (fun t ht => hwf t (List.mem_cons_of_mem a ht)) hdisj.2⟩
    intro b hb
    have h1 := hdisj.1 b hb
    have h2 := hwf b (List.mem_cons_of_mem a hb)
    unfold docLe at h1
    unfold spanWellFormed docLe at h2
    omega

theorem spanContains_of_match (s : Stmt) (p : Position) (hwf : spanWellFormed s)
    (hm : finalLineMatch s p) : spanContains s p := by
  unfold spanWellFormed docLe at hwf
  unfold finalLineMatch at hm
  unfold spanContains docLe
  omega

/-- The fast exit, by index: a statement at index `i` ending after the cursor's line, with
no match at any index up to `i`, ends the scan. -/
theorem loop_eq_none_of_index (stmts : List Stmt) (p : Position) (i : Nat) (s : Stmt)
    (hi : stmts[i]? = some s) (hlate : p.LineNumber < s.stop.Line)
    (hno : ∀ (j : Nat) (t : Stmt), j ≤ i → stmts[j]? = some t → ¬ finalLineMatch t p) :
    statementAtPosition.loop stmts p = none := by
  induction stmts generalizing i with
  | nil => rfl
  | cons a rest ih =>
    have hm : ¬ finalLineMatch a p := hno 0 a (Nat.zero_le i) (by simp)
    cases i with
    | zero =>
      simp at hi
      subst hi
      exact loop_cons_break a rest p hm hlate
    | succ k =>
      by_cases hl : p.LineNumber < a.stop.Line
      · exact loop_cons_break a rest p hm hl
      · rw [loop_cons_next a rest p hm hl]
        refine ih k (by simpa using hi) ?_
        intro j t hj ht
        exact hno (j + 1) t (Nat.succ_le_succ hj) (by simpa using ht)

theorem startsAscending_of_disjoint (stmts : List Stmt)
    (hwf : ∀ t ∈ stmts, spanWellFormed t) (hdisj : spansDisjoint stmts) :
    startsAscending stmts := by
  unfold spansDisjoint at hdisj
  unfold startsAscending
  induction stmts with
  | nil => exact List.Pairwise.nil
  | cons a rest ih =>
    rw [List.pairwise_cons] at hdisj ⊢
    refine ⟨?_, ih (fun t ht => hwf t (List.mem_cons_of_mem a ht)) hdisj.2⟩
    intro b hb
    have h1 := hdisj.1 b hb
    have h2 := hwf a (List.mem_cons_self a rest)
    unfold docLe at h1 ⊢
    unfold spanWellFormed docLe at h2
    omega

theorem completionsForStatment_err {V : Type} (wide : Char → Bool) (stmt : Option Stmt)
    (p : Position) (predeclared : StringDict V) (modules : List ModuleInfo) :
    (completionsForStatment wide stmt p predeclared modules).err = none := by
  unfold completionsForStatment
  split <;> rfl

theorem completionsForStatment_other {V : Type} (wide : Char → Bool) (stmt : Stmt)
    (p : Position) (predeclared : StringDict V) (modules : List ModuleInfo)
    (hkind : stmt.kind ≠ StmtKind.LoadStmt) :
    (completionsForStatment wide (some stmt) p predeclared modules).cmpls = [] := by
  unfold completionsForStatment
  cases hk : stmt.kind <;> simp [hk] at hkind ⊢

/-! ## The module-load strategy (C1, C2, C3) -/

/-- C1: for every module-load statement, cursor `p`, predeclared table and module catalog of
size N (non-empty or not), `completionsForStatment` returns no error and a list of exactly N
items in catalog order; the i-th item has the i-th module's `Name` as `Label`, its
`Documentation` unchanged, the kind `CIKFolder` (ordinal 23), the module's `LoadString` as
`InsertText`, and the zero-width range at `p`. -/
theorem C1_load_statement_completions {V : Type} (wide : Char → Bool) (stmt : Stmt)
    (p : Position) (predeclared : StringDict V) (modules : List ModuleInfo)
    (hload : stmt.kind = StmtKind.LoadStmt) :
    (completionsForStatment wide (some stmt) p predeclared modules).err = none ∧
    (completionsForStatment wide (some stmt) p predeclared modules).cmpls.length
        = modules.length ∧
    ∀ (i : Nat) (mi : ModuleInfo), modules[i]? = some mi →
      ∃ c, (completionsForStatment wide (some stmt) p predeclared modules).cmpls[i]? = some c ∧
        c.Label = mi.Name ∧ c.Documentation = mi.Documentation ∧
        c.Kind = CIKFolder ∧ c.Kind = 23 ∧ c.InsertText = mi.LoadString wide ∧
        c.Range = ⟨p.LineNumber, p.Column, p.LineNumber, p.Column⟩ := by
  rw [completionsForStatment_load wide stmt p predeclared modules hload]
  refine ⟨rfl, by simp, ?_⟩
  intro i mi hi
  refine ⟨mi.Completion wide p, by simp [hi], rfl, rfl, rfl, rfl, rfl, rfl⟩

/-- C1 at a catalog of two modules and the cursor (1,5). -/
theorem C1_load_statement_completions_witness :
    (Stmt.mk StmtKind.LoadStmt ⟨1, 1⟩ ⟨1, 11⟩).kind = StmtKind.LoadStmt ∧
    (completionsForStatment (V := Unit) (fun _ => true)
        (some (Stmt.mk StmtKind.LoadStmt ⟨1, 1⟩ ⟨1, 11⟩)) ⟨1, 5⟩ (fun _ => none)
        [⟨"net/http", "make network requests", "http"⟩, ⟨"time", "clocks", ""⟩]).cmpls.length
      = 2 :=
  ⟨rfl, (C1_load_statement_completions (V := Unit) (fun _ => true)
    (Stmt.mk StmtKind.LoadStmt ⟨1, 1⟩ ⟨1, 11⟩) ⟨1, 5⟩ (fun _ => none)
    [⟨"net/http", "make network requests", "http"⟩, ⟨"time", "clocks", ""⟩] rfl).2.1⟩

/-- C2: `LoadString` is the two-argument quoted form of name and alias when
`DefaultImportSymbol` is not empty, and the one-argument quoted form of the name when it is
empty; the two forms differ, so the text is the two-argument form exactly when an alias is
provided. Name "net/http" with alias "http" gives `load("net/http","http")`, and with no
alias `load("net/http")`, whatever the documentation. -/
theorem C2_LoadString_forms (wide : Char → Bool) (mi : ModuleInfo) :
    (mi.LoadString wide =
      if mi.DefaultImportSymbol ≠ "" then twoArgumentForm wide mi.Name mi.DefaultImportSymbol
      else oneArgumentForm wide mi.Name) ∧
    (mi.LoadString wide = twoArgumentForm wide mi.Name mi.DefaultImportSymbol
      ↔ mi.DefaultImportSymbol ≠ "") ∧
    ModuleInfo.LoadString wide ⟨"net/http", mi.Documentation, "http"⟩
      = "load(\"net/http\",\"http\")" ∧
    ModuleInfo.LoadString wide ⟨"net/http", mi.Documentation, ""⟩ = "load(\"net/http\")" := by
  have hform : mi.LoadString wide =
      if mi.DefaultImportSymbol ≠ "" then twoArgumentForm wide mi.Name mi.DefaultImportSymbol
      else oneArgumentForm wide mi.Name := by
    unfold ModuleInfo.LoadString
    rw [Sprintf_two, Sprintf_one]
  refine ⟨hform, ?_, rfl, rfl⟩
  rw [hform]
  by_cases h : mi.DefaultImportSymbol = ""
  · simp only [h, ne_eq, not_true_eq_false, if_false, iff_false]
    intro hc
    exact twoArgumentForm_ne_oneArgumentForm wide mi.Name "" hc.symm
  · simp [h]

/-- C3: when the source parses into a statement sequence in which `statementAtPosition`
locates a module-load statement at the cursor `p`, `Completions` returns no error and
exactly the list of `m.Completion(p)` for the modules `m` of the catalog, in catalog
order. -/
theorem C3_Completions_on_load {V Src : Type} (Parse : String → Src → Except Error File)
    (wide : Char → Bool) (filename : String) (src : Src) (p : Position)
    (predeclared : StringDict V) (modules : List ModuleInfo) (file : File) (stmt : Stmt)
    (hparse : Parse filename src = Except.ok file)
    (hlocate : (statementAtPosition file p).1 = some stmt)
    (hload : stmt.kind = StmtKind.LoadStmt) :
    (Completions Parse wide filename src p predeclared modules).err = none ∧
    (Completions Parse wide filename src p predeclared modules).cmpls
      = modules.map (fun m => m.Completion wide p) := by
  have hs := (statementAtPosition_eq_some file p stmt hlocate).2
  simp [Completions, hparse, hs, completionsForStatment_load wide stmt p predeclared modules hload]

/-- C3 at the test: source `load("","")`, cursor (1,5) and the catalog with the module
"net/http" give exactly one item. -/
theorem C3_Completions_on_load_witness :
    testParse "" "load(\"\",\"\")" = Except.ok ⟨[⟨StmtKind.LoadStmt, ⟨1, 1⟩, ⟨1, 11⟩⟩]⟩ ∧
    (statementAtPosition ⟨[⟨StmtKind.LoadStmt, ⟨1, 1⟩, ⟨1, 11⟩⟩]⟩ (NewPosition 1 5)).1
      = some ⟨StmtKind.LoadStmt, ⟨1, 1⟩, ⟨1, 11⟩⟩ ∧
    (Completions (V := Unit) testParse (fun _ => true) "" "load(\"\",\"\")" (NewPosition 1 5)
      (fun _ => none) testModules).err = none ∧
    (Completions (V := Unit) testParse (fun _ => true) "" "load(\"\",\"\")" (NewPosition 1 5)
      (fun _ => none) testModules).cmpls
      = [{ InsertText := "load(\"net/http\",\"http\")", Detail := "module", Kind := CIKFolder,
           Label := "net/http", Documentation := "make network requests",
           Range := ⟨1, 5, 1, 5⟩ }] := by
  have h := C3_Completions_on_load (V := Unit) testParse (fun _ => true) ""
    "load(\"\",\"\")" (NewPosition 1 5) (fun _ => none) testModules
    ⟨[⟨StmtKind.LoadStmt, ⟨1, 1⟩, ⟨1, 11⟩⟩]⟩ ⟨StmtKind.LoadStmt, ⟨1, 1⟩, ⟨1, 11⟩⟩
    rfl (by decide) rfl
  refine ⟨rfl, by decide, h.1, ?_⟩
  rw [h.2]
  rfl

/-! ## Parse failures (C4) -/

/-- C4: when the parse fails with a syntax error, `Completions` returns an empty completion
list and no error, for every filename, cursor, predeclared table and catalog. -/
theorem C4_syntax_error_not_propagated {V Src : Type}
    (Parse : String → Src → Except Error File) (wide : Char → Bool) (filename : String)
    (src : Src) (p : Position) (predeclared : StringDict V) (modules : List ModuleInfo)
    (pos : TokenPosition) (msg : String)
    (hparse : Parse filename src = Except.error (Error.SyntaxError pos msg)) :
    (Completions Parse wide filename src p predeclared modules).cmpls = [] ∧
    (Completions Parse wide filename src p predeclared modules).err = none := by
  simp [Completions, hparse]

/-- C4 at the source `load(` and a parser reporting a syntax error at (1,6). -/
theorem C4_syntax_error_not_propagated_witness :
    (Completions (V := Unit)
      (fun (_ _ : String) => Except.error (Error.SyntaxError ⟨1, 6⟩ "got end of file"))
      (fun _ => true) "" "load(" ⟨1, 5⟩ (fun _ => none) testModules).cmpls = [] ∧
    (Completions (V := Unit)
      (fun (_ _ : String) => Except.error (Error.SyntaxError ⟨1, 6⟩ "got end of file"))
      (fun _ => true) "" "load(" ⟨1, 5⟩ (fun _ => none) testModules).err = none :=
  C4_syntax_error_not_propagated (V := Unit)
    (fun (_ _ : String) => Except.error (Error.SyntaxError ⟨1, 6⟩ "got end of file"))
    (fun _ => true) "" "load(" ⟨1, 5⟩ (fun _ => none) testModules ⟨1, 6⟩ "got end of file" rfl

/-! ## The statement locator (C5 to C9) -/

/-- C5: whenever `statementAtPosition` returns a statement `s`, `s` is an element of the
sequence whose end line is the cursor's line and whose start column, cursor column and end
column are in this order, and `s` is the first element satisfying that rule. Hence a
statement is never returned for a cursor on a line before its final line, and a file made
of one such statement gives not found for that cursor. -/
theorem C5_locator_returns_first_match (file : File) (p : Position) (s : Stmt) :
    ((statementAtPosition file p).1 = some s →
      s ∈ file.Stmts ∧
      s.stop.Line = p.LineNumber ∧ s.start.Col ≤ p.Column ∧ p.Column ≤ s.stop.Col ∧
      (∃ pre post, file.Stmts = pre ++ s :: post ∧ ∀ t ∈ pre,
        ¬ (t.stop.Line = p.LineNumber ∧ t.start.Col ≤ p.Column ∧ p.Column ≤ t.stop.Col))) ∧
    (p.LineNumber < s.stop.Line → (statementAtPosition file p).1 ≠ some s) ∧
    (p.LineNumber < s.stop.Line →
      statementAtPosition ⟨[s]⟩ p = (none, some (Errorf "token not found"))) := by
  refine ⟨?_, ?_, ?_⟩
  · intro h
    obtain ⟨hm, pre, post, hsplit, hpre⟩ :=
      loop_eq_some file.Stmts p s (statementAtPosition_eq_some file p s h).1
    exact ⟨by simp [hsplit], hm.1, hm.2.1, hm.2.2, pre, post, hsplit, hpre⟩
  · intro hlt h
    have hm := (loop_eq_some file.Stmts p s (statementAtPosition_eq_some file p s h).1).1
    have := hm.1
    omega
  · intro hlt
    have hm : ¬ finalLineMatch s p := fun hm => by
      have := hm.1
      omega
    exact statementAtPosition_of_loop_none ⟨[s]⟩ p (loop_cons_break s [] p hm hlt)

/-- C5 at a file of two one-line statements with the cursor in the second, and at a
function definition spanning lines 1 to 3 with the cursor on line 2. -/
theorem C5_locator_returns_first_match_witness :
    ((statementAtPosition ⟨[⟨StmtKind.AssignStmt, ⟨1, 1⟩, ⟨1, 6⟩⟩,
        ⟨StmtKind.ExprStmt, ⟨2, 1⟩, ⟨2, 9⟩⟩]⟩ ⟨2, 4⟩).1
        = some ⟨StmtKind.ExprStmt, ⟨2, 1⟩, ⟨2, 9⟩⟩ ∧
      (2 : Int) < (Stmt.mk StmtKind.DefStmt ⟨1, 1⟩ ⟨3, 12⟩).stop.Line) ∧
    (Stmt.mk StmtKind.ExprStmt ⟨2, 1⟩ ⟨2, 9⟩) ∈
      [Stmt.mk StmtKind.AssignStmt ⟨1, 1⟩ ⟨1, 6⟩, ⟨StmtKind.ExprStmt, ⟨2, 1⟩, ⟨2, 9⟩⟩] ∧
    (statementAtPosition ⟨[⟨StmtKind.DefStmt, ⟨1, 1⟩, ⟨3, 12⟩⟩]⟩ ⟨2, 4⟩).1
      ≠ some ⟨StmtKind.DefStmt, ⟨1, 1⟩, ⟨3, 12⟩⟩ ∧
    statementAtPosition ⟨[⟨StmtKind.DefStmt, ⟨1, 1⟩, ⟨3, 12⟩⟩]⟩ ⟨2, 4⟩
      = (none, some (Errorf "token not found")) :=
  ⟨⟨by decide, by decide⟩,
    ((C5_locator_returns_first_match
      ⟨[⟨StmtKind.AssignStmt, ⟨1, 1⟩, ⟨1, 6⟩⟩, ⟨StmtKind.ExprStmt, ⟨2, 1⟩, ⟨2, 9⟩⟩]⟩ ⟨2, 4⟩
      ⟨StmtKind.ExprStmt, ⟨2, 1⟩, ⟨2, 9⟩⟩).1 (by decide)).1,
    (C5_locator_returns_first_match ⟨[⟨StmtKind.DefStmt, ⟨1, 1⟩, ⟨3, 12⟩⟩]⟩ ⟨2, 4⟩
      ⟨StmtKind.DefStmt, ⟨1, 1⟩, ⟨3, 12⟩⟩).2.1 (by decide),
    (C5_locator_returns_first_match ⟨[⟨StmtKind.DefStmt, ⟨1, 1⟩, ⟨3, 12⟩⟩]⟩ ⟨2, 4⟩
      ⟨StmtKind.DefStmt, ⟨1, 1⟩, ⟨3, 12⟩⟩).2.2 (by decide)⟩

/-- C6: when every span of the sequence is well formed (start not after end in document
order), any statement returned by `statementAtPosition` has a span containing the cursor in
document order; and if no statement's span contains the cursor, the locator returns not
found. -/
theorem C6_returned_span_contains_cursor (file : File) (p : Position)
    (hwf : ∀ t ∈ file.Stmts, spanWellFormed t) :
    (∀ s, (statementAtPosition file p).1 = some s → spanContains s p) ∧
    ((∀ t ∈ file.Stmts, ¬ spanContains t p) →
      statementAtPosition file p = (none, some (Errorf "token not found"))) := by
  refine ⟨?_, ?_⟩
  · intro s h
    obtain ⟨hm, pre, post, hsplit, -⟩ :=
      loop_eq_some file.Stmts p s (statementAtPosition_eq_some file p s h).1
    exact spanContains_of_match s p (hwf s (by simp [hsplit])) hm
  · intro hnone
    apply statementAtPosition_of_loop_none
    apply loop_eq_none_of_no_match
    intro t ht hm
    exact hnone t ht (spanContains_of_match t p (hwf t ht) hm)

/-- C6 at a function definition spanning (1,1) to (3,12): the cursor (3,4) is located in
it, and the cursor (5,1), outside it, is not found. -/
theorem C6_returned_span_contains_cursor_witness :
    (∀ t ∈ (File.mk [⟨StmtKind.DefStmt, ⟨1, 1⟩, ⟨3, 12⟩⟩]).Stmts, spanWellFormed t) ∧
    (statementAtPosition ⟨[⟨StmtKind.DefStmt, ⟨1, 1⟩, ⟨3, 12⟩⟩]⟩ ⟨3, 4⟩).1
      = some ⟨StmtKind.DefStmt, ⟨1, 1⟩, ⟨3, 12⟩⟩ ∧
    spanContains ⟨StmtKind.DefStmt, ⟨1, 1⟩, ⟨3, 12⟩⟩ ⟨3, 4⟩ ∧
    (∀ t ∈ (File.mk [⟨StmtKind.DefStmt, ⟨1, 1⟩, ⟨3, 12⟩⟩]).Stmts, ¬ spanContains t ⟨5, 1⟩) ∧
    statementAtPosition ⟨[⟨StmtKind.DefStmt, ⟨1, 1⟩, ⟨3, 12⟩⟩]⟩ ⟨5, 1⟩
      = (none, some (Errorf "token not found")) :=
  ⟨by decide, by decide,
    (C6_returned_span_contains_cursor ⟨[⟨StmtKind.DefStmt, ⟨1, 1⟩, ⟨3, 12⟩⟩]⟩ ⟨3, 4⟩
      (by decide)).1 ⟨StmtKind.DefStmt, ⟨1, 1⟩, ⟨3, 12⟩⟩ (by decide),
    by decide,
    (C6_returned_span_contains_cursor ⟨[⟨StmtKind.DefStmt, ⟨1, 1⟩, ⟨3, 12⟩⟩]⟩ ⟨5, 1⟩
      (by decide)).2 (by decide)⟩

/-- C7: when no statement of the parsed sequence matches the cursor (the empty sequence
included), `statementAtPosition` returns the error "token not found" and no statement, and
`Completions` returns that error with no completion list, so the outcome is not a success.
Conversely `statementAtPosition` never returns both a statement and an error, and never
returns neither. -/
theorem C7_not_found_is_reported (file : File) (p : Position) :
    ((∀ t ∈ file.Stmts, ¬ finalLineMatch t p) →
      statementAtPosition file p = (none, some (Errorf "token not found")) ∧
      ∀ (V Src : Type) (Parse : String → Src → Except Error File) (wide : Char → Bool)
        (filename : String) (src : Src) (predeclared : StringDict V)
        (modules : List ModuleInfo), Parse filename src = Except.ok file →
        (Completions Parse wide filename src p predeclared modules).err
            = some (Errorf "token not found") ∧
          (Completions Parse wide filename src p predeclared modules).err ≠ none ∧
          (Completions Parse wide filename src p predeclared modules).cmpls = []) ∧
    statementAtPosition ⟨[]⟩ p = (none, some (Errorf "token not found")) ∧
    ¬ ((statementAtPosition file p).1 ≠ none ∧ (statementAtPosition file p).2 ≠ none) ∧
    ¬ ((statementAtPosition file p).1 = none ∧ (statementAtPosition file p).2 = none) := by
  refine ⟨?_, rfl, ?_, ?_⟩
  · intro hno
    have h := statementAtPosition_of_loop_none file p (loop_eq_none_of_no_match file.Stmts p hno)
    refine ⟨h, ?_⟩
    intro V Src Parse wide filename src predeclared modules hparse
    simp [Completions, hparse, h, notFound]
  · unfold statementAtPosition
    cases statementAtPosition.loop file.Stmts p <;> simp
  · unfold statementAtPosition
    cases statementAtPosition.loop file.Stmts p <;> simp

/-- C7 at the file of the test with the cursor on line 2, where nothing matches. -/
theorem C7_not_found_is_reported_witness :
    (∀ t ∈ (File.mk [⟨StmtKind.LoadStmt, ⟨1, 1⟩, ⟨1, 11⟩⟩]).Stmts,
      ¬ finalLineMatch t ⟨2, 1⟩) ∧
    testParse "" "load(\"\",\"\")" = Except.ok ⟨[⟨StmtKind.LoadStmt, ⟨1, 1⟩, ⟨1, 11⟩⟩]⟩ ∧
    (Completions (V := Unit) testParse (fun _ => true) "" "load(\"\",\"\")" ⟨2, 1⟩
      (fun _ => none) testModules).err = some (Errorf "token not found") ∧
    (Completions (V := Unit) testParse (fun _ => true) "" "load(\"\",\"\")" ⟨2, 1⟩
      (fun _ => none) testModules).cmpls = [] :=
  have h := ((C7_not_found_is_reported ⟨[⟨StmtKind.LoadStmt, ⟨1, 1⟩, ⟨1, 11⟩⟩]⟩ ⟨2, 1⟩).1
    (by decide)).2 Unit String testParse (fun _ => true) "" "load(\"\",\"\")" (fun _ => none)
    testModules rfl
  ⟨by decide, rfl, h.1, h.2.2⟩

/-- C8, the claim fails: the sequence of a definition spanning (1,1) to (3,1) and an
expression spanning (2,5) to (2,9) is ordered by ascending start position; with the cursor
(2,6) the scan reaches the definition, whose end line 3 exceeds the cursor's line 2, and
stops, although the expression after it satisfies the match rule; the locator returns not
found where the full scan returns the expression. -/
theorem C8_counterexample :
    startsAscending [⟨StmtKind.DefStmt, ⟨1, 1⟩, ⟨3, 1⟩⟩, ⟨StmtKind.ExprStmt, ⟨2, 5⟩, ⟨2, 9⟩⟩] ∧
    (Position.mk 2 6).LineNumber < (Stmt.mk StmtKind.DefStmt ⟨1, 1⟩ ⟨3, 1⟩).stop.Line ∧
    finalLineMatch ⟨StmtKind.ExprStmt, ⟨2, 5⟩, ⟨2, 9⟩⟩ ⟨2, 6⟩ ∧
    statementAtPosition
        ⟨[⟨StmtKind.DefStmt, ⟨1, 1⟩, ⟨3, 1⟩⟩, ⟨StmtKind.ExprStmt, ⟨2, 5⟩, ⟨2, 9⟩⟩]⟩ ⟨2, 6⟩
      = (none, some (Errorf "token not found")) ∧
    fullScanStatementAtPosition
        ⟨[⟨StmtKind.DefStmt, ⟨1, 1⟩, ⟨3, 1⟩⟩, ⟨StmtKind.ExprStmt, ⟨2, 5⟩, ⟨2, 9⟩⟩]⟩ ⟨2, 6⟩
      = (some ⟨StmtKind.ExprStmt, ⟨2, 5⟩, ⟨2, 9⟩⟩, none) ∧
    statementAtPosition
        ⟨[⟨StmtKind.DefStmt, ⟨1, 1⟩, ⟨3, 1⟩⟩, ⟨StmtKind.ExprStmt, ⟨2, 5⟩, ⟨2, 9⟩⟩]⟩ ⟨2, 6⟩
      ≠ fullScanStatementAtPosition
        ⟨[⟨StmtKind.DefStmt, ⟨1, 1⟩, ⟨3, 1⟩⟩, ⟨StmtKind.ExprStmt, ⟨2, 5⟩, ⟨2, 9⟩⟩]⟩ ⟨2, 6⟩ := by
  refine ⟨by decide, by decide, by decide, by decide, by decide, by decide⟩

/-- C8, amended: for every statement sequence whose spans are well formed and do not
overlap (each statement ends at or before the start of every later one), which is then
ordered by ascending start position, and every cursor: after a statement whose end line
exceeds the cursor's line no statement satisfies the match rule, and `statementAtPosition`
returns the same result as the full scan without the early exit. -/
theorem C8_fast_exit_agrees_with_full_scan (file : File) (p : Position)
    (hwf : ∀ t ∈ file.Stmts, spanWellFormed t) (hdisj : spansDisjoint file.Stmts) :
    startsAscending file.Stmts ∧
    (∀ pre s post, file.Stmts = pre ++ s :: post → p.LineNumber < s.stop.Line →
      ∀ t ∈ post, ¬ finalLineMatch t p) ∧
    statementAtPosition file p = fullScanStatementAtPosition file p := by
  have hmono := endLines_monotone file.Stmts hwf hdisj
  refine ⟨startsAscending_of_disjoint file.Stmts hwf hdisj, ?_, ?_⟩
  · intro pre s post hsplit hlate t ht hm
    rw [hsplit, List.pairwise_append] at hmono
    have hle := (List.pairwise_cons.mp hmono.2.1).1 t ht
    have := hm.1
    omega
  · unfold statementAtPosition fullScanStatementAtPosition
    rw [loop_eq_find file.Stmts p hmono]
    rfl

/-- C8 amended, at a definition on lines 1 to 3 followed by an expression on line 4, with
the cursor (4,2) and with the cursor (2,6). -/
theorem C8_fast_exit_agrees_with_full_scan_witness :
    (∀ t ∈ (File.mk [⟨StmtKind.DefStmt, ⟨1, 1⟩, ⟨3, 1⟩⟩,
        ⟨StmtKind.ExprStmt, ⟨4, 1⟩, ⟨4, 9⟩⟩]).Stmts, spanWellFormed t) ∧
    spansDisjoint (File.mk [⟨StmtKind.DefStmt, ⟨1, 1⟩, ⟨3, 1⟩⟩,
        ⟨StmtKind.ExprStmt, ⟨4, 1⟩, ⟨4, 9⟩⟩]).Stmts ∧
    statementAtPosition
        ⟨[⟨StmtKind.DefStmt, ⟨1, 1⟩, ⟨3, 1⟩⟩, ⟨StmtKind.ExprStmt, ⟨4, 1⟩, ⟨4, 9⟩⟩]⟩ ⟨4, 2⟩
      = fullScanStatementAtPosition
        ⟨[⟨StmtKind.DefStmt, ⟨1, 1⟩, ⟨3, 1⟩⟩, ⟨StmtKind.ExprStmt, ⟨4, 1⟩, ⟨4, 9⟩⟩]⟩ ⟨4, 2⟩ ∧
    statementAtPosition
        ⟨[⟨StmtKind.DefStmt, ⟨1, 1⟩, ⟨3, 1⟩⟩, ⟨StmtKind.ExprStmt, ⟨4, 1⟩, ⟨4, 9⟩⟩]⟩ ⟨4, 2⟩
      = (some ⟨StmtKind.ExprStmt, ⟨4, 1⟩, ⟨4, 9⟩⟩, none) :=
  ⟨by decide, by decide,
    (C8_fast_exit_agrees_with_full_scan
      ⟨[⟨StmtKind.DefStmt, ⟨1, 1⟩, ⟨3, 1⟩⟩, ⟨StmtKind.ExprStmt, ⟨4, 1⟩, ⟨4, 9⟩⟩]⟩ ⟨4, 2⟩
      (by decide) (by decide)).2.2,
    by decide⟩

/-- C9: on any sequence, ordered or not, if the statement at some index `i` has an end line
greater than the cursor's line and no statement at an index up to `i` satisfies the match
rule, `statementAtPosition` returns not found, whatever the statements after index `i`. -/
theorem C9_fast_exit_on_arbitrary_input (file : File) (p : Position) (i : Nat) (s : Stmt)
    (hi : file.Stmts[i]? = some s) (hlate : p.LineNumber < s.stop.Line)
    (hno : ∀ (j : Nat) (t : Stmt), j ≤ i → file.Stmts[j]? = some t → ¬ finalLineMatch t p) :
    statementAtPosition file p = (none, some (Errorf "token not found")) :=
  statementAtPosition_of_loop_none file p (loop_eq_none_of_index file.Stmts p i s hi hlate hno)

/-- C9 at the spans (3,1)-(3,5) and (1,1)-(1,5) with the cursor (1,2): not found, although
the second statement satisfies the match rule. -/
theorem C9_fast_exit_on_arbitrary_input_witness :
    (File.mk [⟨StmtKind.ExprStmt, ⟨3, 1⟩, ⟨3, 5⟩⟩, ⟨StmtKind.ExprStmt, ⟨1, 1⟩, ⟨1, 5⟩⟩]).Stmts[0]?
      = some ⟨StmtKind.ExprStmt, ⟨3, 1⟩, ⟨3, 5⟩⟩ ∧
    (Position.mk 1 2).LineNumber < (Stmt.mk StmtKind.ExprStmt ⟨3, 1⟩ ⟨3, 5⟩).stop.Line ∧
    ¬ finalLineMatch ⟨StmtKind.ExprStmt, ⟨3, 1⟩, ⟨3, 5⟩⟩ ⟨1, 2⟩ ∧
    finalLineMatch ⟨StmtKind.ExprStmt, ⟨1, 1⟩, ⟨1, 5⟩⟩ ⟨1, 2⟩ ∧
    statementAtPosition
        ⟨[⟨StmtKind.ExprStmt, ⟨3, 1⟩, ⟨3, 5⟩⟩, ⟨StmtKind.ExprStmt, ⟨1, 1⟩, ⟨1, 5⟩⟩]⟩ ⟨1, 2⟩
      = (none, some (Errorf "token not found")) :=
  ⟨rfl, by decide, by decide, by decide,
    C9_fast_exit_on_arbitrary_input
      ⟨[⟨StmtKind.ExprStmt, ⟨3, 1⟩, ⟨3, 5⟩⟩, ⟨StmtKind.ExprStmt, ⟨1, 1⟩, ⟨1, 5⟩⟩]⟩ ⟨1, 2⟩ 0
      ⟨StmtKind.ExprStmt, ⟨3, 1⟩, ⟨3, 5⟩⟩ rfl (by decide)
      (by
        intro j t hj ht
        have hj0 : j = 0 := Nat.le_zero.mp hj
        subst hj0
        simp at ht
        subst ht
        decide)⟩

/-! ## The dispatcher (C10) -/

/-- C10: for every statement of a kind other than module-load, that is assignment, branch,
function definition, bare expression, for loop, while loop, if conditional or return, and
every cursor, predeclared table and catalog, `completionsForStatment` returns an empty list
and no error; and for a statement of any of the nine kinds it returns no error. -/
theorem C10_other_kinds_yield_nothing {V : Type} (wide : Char → Bool) (stmt : Stmt)
    (p : Position) (predeclared : StringDict V) (modules : List ModuleInfo) :
    (stmt.kind ≠ StmtKind.LoadStmt →
      (completionsForStatment wide (some stmt) p predeclared modules).cmpls = [] ∧
      (completionsForStatment wide (some stmt) p predeclared modules).err = none) ∧
    (stmt.kind ≠ StmtKind.LoadStmt ↔
      stmt.kind ∈ [StmtKind.AssignStmt, StmtKind.BranchStmt, StmtKind.DefStmt,
        StmtKind.ExprStmt, StmtKind.ForStmt, StmtKind.WhileStmt, StmtKind.IfStmt,
        StmtKind.ReturnStmt]) ∧
    (stmt.kind ∈ [StmtKind.AssignStmt, StmtKind.BranchStmt, StmtKind.DefStmt,
        StmtKind.ExprStmt, StmtKind.ForStmt, StmtKind.WhileStmt, StmtKind.IfStmt,
        StmtKind.LoadStmt, StmtKind.ReturnStmt] ∧
      (completionsForStatment wide (some stmt) p predeclared modules).err = none) := by
  refine ⟨fun hkind => ⟨completionsForStatment_other wide stmt p predeclared modules hkind,
    completionsForStatment_err wide (some stmt) p predeclared modules⟩, ?_, ?_,
    completionsForStatment_err wide (some stmt) p predeclared modules⟩
  · cases stmt.kind <;> simp
  · cases stmt.kind <;> simp

/-- C10 at an assignment with the catalog of the test. -/
theorem C10_other_kinds_yield_nothing_witness :
    (Stmt.mk StmtKind.AssignStmt ⟨1, 1⟩ ⟨1, 6⟩).kind ≠ StmtKind.LoadStmt ∧
    (completionsForStatment (V := Unit) (fun _ => true)
      (some ⟨StmtKind.AssignStmt, ⟨1, 1⟩, ⟨1, 6⟩⟩) ⟨1, 3⟩ (fun _ => none) testModules).cmpls
      = [] ∧
    (completionsForStatment (V := Unit) (fun _ => true)
      (some ⟨StmtKind.AssignStmt, ⟨1, 1⟩, ⟨1, 6⟩⟩) ⟨1, 3⟩ (fun _ => none) testModules).err
      = none :=
  ⟨by decide,
    (C10_other_kinds_yield_nothing (V := Unit) (fun _ => true)
      ⟨StmtKind.AssignStmt, ⟨1, 1⟩, ⟨1, 6⟩⟩ ⟨1, 3⟩ (fun _ => none) testModules).1
      (by decide)⟩

/-! ## Lemmas on the kinds, the mappings and single-line statements -/

theorem allKinds_eq_range : allKinds = (List.range 26).map (fun n => Int.ofNat n) := by
  decide

theorem String_isSome_iff (k : Int) :
    (CompletionItemKind.String k).isSome ↔ k ∈ allKinds := by
  have hlen : kindNames.length = 26 := by decide
  rw [allKinds_eq_range]
  simp only [List.mem_map, List.mem_range]
  unfold CompletionItemKind.String
  rw [hlen]
  constructor
  · intro h
    split at h
    · next hk =>
      have hk' : (0 : Int) ≤ k ∧ k < 26 := hk
      exact ⟨k.toNat, by omega, by simp [Int.toNat_of_nonneg hk.1]⟩
    · simp at h
  · rintro ⟨n, hn, rfl⟩
    have hin : (0 : Int) ≤ Int.ofNat n ∧ Int.ofNat n < ((26 : Nat) : Int) :=
      ⟨Int.ofNat_nonneg n, Int.ofNat_lt.mpr hn⟩
    rw [if_pos hin]
    have hl : (Int.ofNat n).toNat < kindNames.length := by rw [hlen]; simpa using hn
    rw [List.getElem?_eq_getElem hl]
    rfl

theorem GoMap.get_isSome_iff (m : GoMap) (k : String) :
    (m.get k).isSome ↔ k ∈ m.map Prod.fst := by
  unfold GoMap.get
  induction m with
  | nil => simp [List.lookup]
  | cons e rest ih =>
    obtain ⟨a, b⟩ := e
    by_cases h : k = a
    · subst h
      simp [List.lookup]
    · have hb : (k == a) = false := by simpa using h
      simp only [List.lookup, hb, List.map_cons, List.mem_cons, h, false_or]
      exact ih

theorem CompletionsToMap_eq_map (cmpls : List Completion) :
    CompletionsToMap cmpls = cmpls.map Completion.ToMap := by
  simpa [CompletionsToMap] using foldl_append_singleton Completion.ToMap cmpls []

theorem endLines_monotone_of_single_line (stmts : List Stmt) (hasc : startsAscending stmts)
    (hsingle : ∀ t ∈ stmts, t.start.Line = t.stop.Line) :
    stmts.Pairwise (fun a b => a.stop.Line ≤ b.stop.Line) := by
  unfold startsAscending at hasc
  induction stmts with
  | nil => exact List.Pairwise.nil
  | cons a rest ih =>
    rw [List.pairwise_cons] at hasc ⊢
    refine ⟨?_, ih hasc.2 (fun t ht => hsingle t (List.mem_cons_of_mem a ht))⟩
    intro b hb
    have h1 := hasc.1 b hb
    have h2 := hsingle a (List.mem_cons_self a rest)
    have h3 := hsingle b (List.mem_cons_of_mem a hb)
    unfold docLe at h1
    omega

theorem completionsForStatment_stdout {V : Type} (wide : Char → Bool) (stmt : Option Stmt)
    (p : Position) (predeclared : StringDict V) (modules : List ModuleInfo) :
    (completionsForStatment wide stmt p predeclared modules).stdout
      = [Printf.mk "statement: %#v\n" stmt] := by
  unfold completionsForStatment
  split <;> rfl

theorem completionsForStatment_cmpls_of_kind {V W : Type} (wide : Char → Bool)
    (s₁ s₂ : Stmt) (p : Position) (pre₁ : StringDict V) (pre₂ : StringDict W)
    (modules : List ModuleInfo) (hkind : s₁.kind = s₂.kind) :
    (completionsForStatment wide (some s₁) p pre₁ modules).cmpls
      = (completionsForStatment wide (some s₂) p pre₂ modules).cmpls := by
  unfold completionsForStatment
  simp only [Option.map_some', hkind]
  cases s₂.kind <;> rfl

/-! ## Degenerate inputs and parser failures (C11, C12) -/

/-- C11: for an empty module catalog `moduleInfosToCompletions` returns an empty list for
every cursor, and `completionsForStatment` on a module-load statement returns an empty list
and no error. -/
theorem C11_empty_catalog {V : Type} (wide : Char → Bool) (stmt : Stmt) (p : Position)
    (predeclared : StringDict V) (hload : stmt.kind = StmtKind.LoadStmt) :
    moduleInfosToCompletions wide [] p = [] ∧
    (completionsForStatment wide (some stmt) p predeclared []).cmpls = [] ∧
    (completionsForStatment wide (some stmt) p predeclared []).err = none := by
  rw [completionsForStatment_load wide stmt p predeclared [] hload]
  exact ⟨rfl, rfl, rfl⟩

/-- C11 at the load statement of the test with the cursor (1,5). -/
theorem C11_empty_catalog_witness :
    (Stmt.mk StmtKind.LoadStmt ⟨1, 1⟩ ⟨1, 11⟩).kind = StmtKind.LoadStmt ∧
    moduleInfosToCompletions (fun _ => true) [] ⟨1, 5⟩ = [] ∧
    (completionsForStatment (V := Unit) (fun _ => true)
      (some ⟨StmtKind.LoadStmt, ⟨1, 1⟩, ⟨1, 11⟩⟩) ⟨1, 5⟩ (fun _ => none) []).cmpls = [] ∧
    (completionsForStatment (V := Unit) (fun _ => true)
      (some ⟨StmtKind.LoadStmt, ⟨1, 1⟩, ⟨1, 11⟩⟩) ⟨1, 5⟩ (fun _ => none) []).err = none :=
  ⟨rfl, C11_empty_catalog (V := Unit) (fun _ => true) ⟨StmtKind.LoadStmt, ⟨1, 1⟩, ⟨1, 11⟩⟩
    ⟨1, 5⟩ (fun _ => none) rfl⟩

/-- C12: when the parse fails with an error that is not a syntax error, `Completions`
returns exactly that error, with no completion list, for every cursor, predeclared table
and catalog. -/
theorem C12_other_parse_failure_is_returned {V Src : Type}
    (Parse : String → Src → Except Error File) (wide : Char → Bool) (filename : String)
    (src : Src) (p : Position) (predeclared : StringDict V) (modules : List ModuleInfo)
    (e : Error) (hparse : Parse filename src = Except.error e)
    (hother : ∀ (pos : TokenPosition) (msg : String), e ≠ Error.SyntaxError pos msg) :
    (Completions Parse wide filename src p predeclared modules).err = some e ∧
    (Completions Parse wide filename src p predeclared modules).cmpls = [] := by
  cases e with
  | SyntaxError pos msg => exact absurd rfl (hother pos msg)
  | Other msg => simp [Completions, hparse]

/-- C12 at a parser that fails to read the file named `missing.star`. -/
theorem C12_other_parse_failure_is_returned_witness :
    (∀ (pos : TokenPosition) (msg : String),
      Error.Other "open missing.star: no such file" ≠ Error.SyntaxError pos msg) ∧
    (Completions (V := Unit)
      (fun (_ : String) (_ : Unit) => Except.error (Error.Other "open missing.star: no such file"))
      (fun _ => true) "missing.star" () ⟨1, 5⟩ (fun _ => none) testModules).err
      = some (Error.Other "open missing.star: no such file") ∧
    (Completions (V := Unit)
      (fun (_ : String) (_ : Unit) => Except.error (Error.Other "open missing.star: no such file"))
      (fun _ => true) "missing.star" () ⟨1, 5⟩ (fun _ => none) testModules).cmpls = [] :=
  ⟨fun _ _ h => Error.noConfusion h,
    C12_other_parse_failure_is_returned (V := Unit)
      (fun (_ : String) (_ : Unit) => Except.error (Error.Other "open missing.star: no such file"))
      (fun _ => true) "missing.star" () ⟨1, 5⟩ (fun _ => none) testModules
      (Error.Other "open missing.star: no such file") rfl (fun _ _ h => Error.noConfusion h)⟩

/-! ## The mappings for the host editor (C13, C18) -/

/-- C13: for every completion `c`, `c.ToMap()` has exactly the six keys insertText, detail,
kind, label, documentation and range, holding the `InsertText`, `Detail`, `Kind`, `Label` and
`Documentation` of `c` and `c.Range.ToMap()`; for every range `r`, `r.ToMap()` has exactly
the four keys startLineNumber, startColumn, endLineNumber and endColumn, holding the four
integer fields of `r`. -/
theorem C13_ToMap_keys_and_values (c : Completion) (r : Range) :
    (c.ToMap.length = 6 ∧ ∀ k : String, (c.ToMap.get k).isSome ↔ k ∈ completionKeys) ∧
    c.ToMap.get "insertText" = some (Value.ofString c.InsertText) ∧
    c.ToMap.get "detail" = some (Value.ofString c.Detail) ∧
    c.ToMap.get "kind" = some (Value.ofKind c.Kind) ∧
    c.ToMap.get "label" = some (Value.ofString c.Label) ∧
    c.ToMap.get "documentation" = some (Value.ofString c.Documentation) ∧
    c.ToMap.get "range" = some (Value.ofMap c.Range.ToMap) ∧
    (r.ToMap.length = 4 ∧ ∀ k : String, (r.ToMap.get k).isSome ↔ k ∈ rangeKeys) ∧
    r.ToMap.get "startLineNumber" = some (Value.ofInt32 r.StartLineNumber) ∧
    r.ToMap.get "startColumn" = some (Value.ofInt32 r.StartColumn) ∧
    r.ToMap.get "endLineNumber" = some (Value.ofInt32 r.EndLineNumber) ∧
    r.ToMap.get "endColumn" = some (Value.ofInt32 r.EndColumn) :=
  ⟨⟨rfl, fun k => GoMap.get_isSome_iff c.ToMap k⟩, rfl, rfl, rfl, rfl, rfl, rfl,
    ⟨rfl, fun k => GoMap.get_isSome_iff r.ToMap k⟩, rfl, rfl, rfl, rfl⟩

/-- C18: for every list of completions `cs`, `CompletionsToMap(cs)` has the length of `cs`
and its i-th element is `cs[i].ToMap()` for every index `i`, with no element beyond the
length of `cs`; for the empty list it is the empty list. -/
theorem C18_CompletionsToMap_elementwise (cs : List Completion) :
    (CompletionsToMap cs).length = cs.length ∧
    (∀ i : Nat, (CompletionsToMap cs)[i]? = (cs[i]?).map Completion.ToMap) ∧
    CompletionsToMap [] = [] := by
  rw [CompletionsToMap_eq_map]
  exact ⟨by simp, fun i => by simp, rfl⟩

/-! ## The kinds of completion items (C14) -/

/-- C14: `CompletionItemKind` has 26 declared values, with the ordinals 0 to 25 in the order
method, function, constructor, field, variable, class, struct, interface, module, property,
event, operator, unit, value, constant, enum, enum member, keyword, text, color, file,
reference, custom color, folder, type parameter, snippet (method 0, module 8, folder 23,
snippet 25); on each of these 26 values `String` returns the name of that category, without
an index out of range, and it returns a name on no other value; the 26 names are pairwise
distinct. -/
theorem C14_kinds_and_names (k : CompletionItemKind) :
    allKinds.length = 26 ∧
    allKinds = (List.range 26).map (fun n => Int.ofNat n) ∧
    (CIKMethod = 0 ∧ CIKModule = 8 ∧ CIKFolder = 23 ∧ CIKSnippet = 25) ∧
    ([
      CIKMethod, CIKFunction, CIKConstructor, CIKField, CIKVariable, CIKClass, CIKStruct,
      CIKInterface, CIKModule, CIKProperty, CIKEvent, CIKOperator, CIKUnit, CIKValue,
      CIKConstant, CIKEnum, CIKEnumMember, CIKKeyword, CIKText, CIKColor, CIKFile,
      CIKReference, CIKCustomcolor, CIKFolder, CIKTypeParameter, CIKSnippet] : List CompletionItemKind) = [
      0, 1, 2, 3, 4, 5, 6, 7, 8, 9, 10, 11, 12, 13, 14, 15, 16, 17, 18, 19, 20, 21, 22, 23, 24,
      25] ∧
    [
      CompletionItemKind.String CIKMethod, CompletionItemKind.String CIKFunction,
      CompletionItemKind.String CIKConstructor, CompletionItemKind.String CIKField,
      CompletionItemKind.String CIKVariable, CompletionItemKind.String CIKClass,
      CompletionItemKind.String CIKStruct, CompletionItemKind.String CIKInterface,
      CompletionItemKind.String CIKModule, CompletionItemKind.String CIKProperty,
      CompletionItemKind.String CIKEvent, CompletionItemKind.String CIKOperator,
      CompletionItemKind.String CIKUnit, CompletionItemKind.String CIKValue,
      CompletionItemKind.String CIKConstant, CompletionItemKind.String CIKEnum,
      CompletionItemKind.String CIKEnumMember, CompletionItemKind.String CIKKeyword,
      CompletionItemKind.String CIKText, CompletionItemKind.String CIKColor,
      CompletionItemKind.String CIKFile, CompletionItemKind.String CIKReference,
      CompletionItemKind.String CIKCustomcolor, CompletionItemKind.String CIKFolder,
      CompletionItemKind.String CIKTypeParameter, CompletionItemKind.String CIKSnippet] = [
      some "Method", some "Function", some "Constructor", some "Field", some "Variable",
      some "Class", some "Struct", some "Interface", some "Module", some "Property",
      some "Event", some "Operator", some "Unit", some "Value", some "Constant", some "Enum",
      some "EnumMember", some "Keyword", some "Text", some "Color", some "File",
      some "Reference", some "Customcolor", some "Folder", some "TypeParameter", some "Snippet"] ∧
    ([
      "Method", "Function", "Constructor", "Field", "Variable", "Class", "Struct", "Interface",
      "Module", "Property", "Event", "Operator", "Unit", "Value", "Constant", "Enum",
      "EnumMember", "Keyword", "Text", "Color", "File", "Reference", "Customcolor", "Folder",
      "TypeParameter", "Snippet"] : List String).Nodup ∧
    allKinds.map CompletionItemKind.String = kindNames.map some ∧
    ((CompletionItemKind.String k).isSome ↔ k ∈ allKinds) ∧
    kindNames.length = 26 ∧ kindNames.Nodup ∧
    CompletionItemKind.String CIKMethod = some "Method" ∧
    CompletionItemKind.String CIKModule = some "Module" ∧
    CompletionItemKind.String CIKEnumMember = some "EnumMember" ∧
    CompletionItemKind.String CIKCustomcolor = some "Customcolor" ∧
    CompletionItemKind.String CIKFolder = some "Folder" ∧
    CompletionItemKind.String CIKTypeParameter = some "TypeParameter" ∧
    CompletionItemKind.String CIKSnippet = some "Snippet" :=
  ⟨by decide, allKinds_eq_range, ⟨rfl, rfl, rfl, rfl⟩, by decide, by decide, by decide,
    by decide, String_isSome_iff k, by decide, by decide, by decide, by decide, by decide,
    by decide, by decide, by decide, by decide⟩

/-! ## Effects and dependencies of the dispatcher (C15, C17) -/

/-- C15, evaluated on the code: `completionsForStatment` writes to standard output on every
call, one `Printf` of the format `statement: %#v` with the statement as operand; so does
`Completions` on the input of the test, where the parse succeeds and the load statement is
located. -/
theorem C15_dispatcher_writes_to_stdout :
    (∀ (wide : Char → Bool) (stmt : Option Stmt) (p : Position) (predeclared : StringDict Unit)
      (modules : List ModuleInfo),
      (completionsForStatment wide stmt p predeclared modules).stdout
        = [Printf.mk "statement: %#v\n" stmt] ∧
      (completionsForStatment wide stmt p predeclared modules).stdout ≠ []) ∧
    (Completions (V := Unit) testParse (fun _ => true) "" "load(\"\",\"\")" (NewPosition 1 5)
      (fun _ => none) testModules).stdout
      = [Printf.mk "statement: %#v\n" (some ⟨StmtKind.LoadStmt, ⟨1, 1⟩, ⟨1, 11⟩⟩)] := by
  refine ⟨fun wide stmt p predeclared modules => ?_, by decide⟩
  rw [completionsForStatment_stdout]
  exact ⟨rfl, by simp⟩

/-- C17: the list and the error returned by `completionsForStatment` depend only on the kind
of the statement, the cursor and the catalog: two statements of the same kind, with any two
predeclared tables, give the same list and the same error. -/
theorem C17_result_depends_on_kind_only {V W : Type} (wide : Char → Bool) (s₁ s₂ : Stmt)
    (p : Position) (pre₁ : StringDict V) (pre₂ : StringDict W) (modules : List ModuleInfo)
    (hkind : s₁.kind = s₂.kind) :
    (completionsForStatment wide (some s₁) p pre₁ modules).cmpls
      = (completionsForStatment wide (some s₂) p pre₂ modules).cmpls ∧
    (completionsForStatment wide (some s₁) p pre₁ modules).err
      = (completionsForStatment wide (some s₂) p pre₂ modules).err := by
  refine ⟨completionsForStatment_cmpls_of_kind wide s₁ s₂ p pre₁ pre₂ modules hkind, ?_⟩
  rw [completionsForStatment_err, completionsForStatment_err]

/-- C17 at two load statements with different spans, an empty predeclared table and one
that declares `print`. -/
theorem C17_result_depends_on_kind_only_witness :
    (Stmt.mk StmtKind.LoadStmt ⟨1, 1⟩ ⟨1, 11⟩).kind
      = (Stmt.mk StmtKind.LoadStmt ⟨7, 3⟩ ⟨9, 2⟩).kind ∧
    (completionsForStatment (fun _ => true) (some ⟨StmtKind.LoadStmt, ⟨1, 1⟩, ⟨1, 11⟩⟩)
        ⟨1, 5⟩ (fun _ => (none : Option Unit)) testModules).cmpls
      = (completionsForStatment (fun _ => true) (some ⟨StmtKind.LoadStmt, ⟨7, 3⟩, ⟨9, 2⟩⟩)
        ⟨1, 5⟩ (fun name => if name = "print" then some "builtin" else none)
        testModules).cmpls :=
  ⟨rfl, (C17_result_depends_on_kind_only (fun _ => true)
    ⟨StmtKind.LoadStmt, ⟨1, 1⟩, ⟨1, 11⟩⟩ ⟨StmtKind.LoadStmt, ⟨7, 3⟩, ⟨9, 2⟩⟩ ⟨1, 5⟩
    (fun _ => (none : Option Unit)) (fun name => if name = "print" then some "builtin" else none)
    testModules rfl).1⟩

/-! ## Completeness of the locator on single-line statements (C16) -/

/-- C16: for every statement sequence ordered by ascending start position in which every
statement starts and ends on the same line, and every cursor, if some statement lies on the
cursor's line with start column, cursor column and end column in this order,
`statementAtPosition` returns a statement and no error, and that statement satisfies the
match rule. -/
theorem C16_single_line_completeness (file : File) (p : Position)
    (hasc : startsAscending file.Stmts)
    (hsingle : ∀ t ∈ file.Stmts, t.start.Line = t.stop.Line)
    (hex : ∃ s ∈ file.Stmts,
      s.start.Line = p.LineNumber ∧ s.start.Col ≤ p.Column ∧ p.Column ≤ s.stop.Col) :
    ∃ s', statementAtPosition file p = (some s', none) ∧ s' ∈ file.Stmts ∧
      finalLineMatch s' p ∧ spanContains s' p := by
  obtain ⟨s, hs, hline, hc1, hc2⟩ := hex
  have hm : finalLineMatch s p := ⟨by rw [← hsingle s hs]; exact hline, hc1, hc2⟩
  have hfind := loop_eq_find file.Stmts p
    (endLines_monotone_of_single_line file.Stmts hasc hsingle)
  cases hl : statementAtPosition.loop file.Stmts p with
  | none =>
    rw [hl] at hfind
    have hnone := List.find?_eq_none.mp hfind.symm s hs
    simp [hm] at hnone
  | some s' =>
    obtain ⟨hm', pre, post, hsplit, -⟩ := loop_eq_some file.Stmts p s' hl
    have hmem : s' ∈ file.Stmts := by simp [hsplit]
    refine ⟨s', by simp [statementAtPosition, hl], hmem, hm', ?_⟩
    have h1 := hsingle s' hmem
    unfold finalLineMatch at hm'
    unfold spanContains docLe
    omega

/-- C16 at three one-line statements with the cursor (2,4) in the second. -/
theorem C16_single_line_completeness_witness :
    startsAscending (File.mk [⟨StmtKind.LoadStmt, ⟨1, 1⟩, ⟨1, 11⟩⟩,
      ⟨StmtKind.AssignStmt, ⟨2, 1⟩, ⟨2, 6⟩⟩, ⟨StmtKind.ExprStmt, ⟨3, 1⟩, ⟨3, 9⟩⟩]).Stmts ∧
    ∃ s', statementAtPosition ⟨[⟨StmtKind.LoadStmt, ⟨1, 1⟩, ⟨1, 11⟩⟩,
      ⟨StmtKind.AssignStmt, ⟨2, 1⟩, ⟨2, 6⟩⟩, ⟨StmtKind.ExprStmt, ⟨3, 1⟩, ⟨3, 9⟩⟩]⟩ ⟨2, 4⟩
        = (some s', none) :=
  ⟨by decide,
    (C16_single_line_completeness ⟨[⟨StmtKind.LoadStmt, ⟨1, 1⟩, ⟨1, 11⟩⟩,
      ⟨StmtKind.AssignStmt, ⟨2, 1⟩, ⟨2, 6⟩⟩, ⟨StmtKind.ExprStmt, ⟨3, 1⟩, ⟨3, 9⟩⟩]⟩ ⟨2, 4⟩
      (by decide) (by decide)
      ⟨⟨StmtKind.AssignStmt, ⟨2, 1⟩, ⟨2, 6⟩⟩, by decide, by decide⟩).imp
      (fun _ h => h.1)⟩

end starcomplete
